import Mathlib

/-!
Shallow embedding of the smart-expense-assistant client (TypeScript/React).

Sources embedded:
- src/types.ts : ExpenseData, SubmissionStatus
- constants.ts : EXPENSE_CATEGORIES, N8N_WEBHOOK_URL
- src/App.tsx : handleAiParseSuccess (merge policy), validateForm,
  handleSubmit, handleFileChange, removeReceipt, resetForm
- services/geminiService.ts : parseJsonResponse (sanitizer)
- services/n8nService.ts : submitExpense

JS numbers are modelled as rationals (the code only compares amounts with
500 and stores them); the unset amount (the empty string) is Option.none.
JS strings are Lean strings; string.split(c)[0] is modelled as takeWhile,
string.toUpperCase as a character map, url.includes(sub) as list infix.
-/

/-- constants.ts EXPENSE_CATEGORIES: the four values of ExpenseCategory in
types.ts. -/
def EXPENSE_CATEGORIES : List String :=
  ["Food Expense", "Travel", "Accommodation", "Other office expenses"]

/-- constants.ts N8N_WEBHOOK_URL (the configured webhook). -/
def N8N_WEBHOOK_URL : String :=
  "https://snehalpapnoi9.app.n8n.cloud/webhook/41a87729-88be-4791-86ef-708e5d1ee553"

/-- types.ts ExpenseData. expenseCategory is a string that is either one of
EXPENSE_CATEGORIES or the empty string; amount is a number or the empty
string (none). -/
structure ExpenseData where
  employeeName : String
  employeeId : String
  expenseCategory : String
  project : String
  expenseTitle : String
  expenseDate : String
  currency : String
  amount : Option ℚ
  comment : String
deriving DecidableEq

/-- App.tsx emptyExpenseState; the expenseDate default is the current date,
passed in as a parameter. -/
def emptyExpenseState (today : String) : ExpenseData :=
  { employeeName := "Snehal Papnoi"
    employeeId := "snehalpapnoi9@gmail.com"
    expenseCategory := ""
    project := ""
    expenseTitle := ""
    expenseDate := today
    currency := "INR"
    amount := none
    comment := "" }

/-- JS Number(amount) for amount of type number-or-empty-string:
Number of the empty string is 0. -/
def amountNum (d : ExpenseData) : ℚ := d.amount.getD 0

/-- App.tsx validateForm, the errors array it pushes to: each falsy required
field appends its label, in source order; then the conditional receipt rule
(Number(amount) > 500 and no receipt file) appends a final label.
JS falsiness of the string fields is emptiness; amount is missing exactly
when it is the empty string or null (zero is NOT missing). -/
def validateErrors (d : ExpenseData) (receiptAttached : Bool) : List String :=
  (if d.expenseCategory = "" then ["Expense Category"] else []) ++
  (if d.project = "" then ["Project / Cost Center"] else []) ++
  (if d.expenseTitle = "" then ["Expense Title"] else []) ++
  (if d.expenseDate = "" then ["Expense Date"] else []) ++
  (if d.amount = none then ["Amount"] else []) ++
  (if d.comment = "" then ["Comment"] else []) ++
  (if 500 < amountNum d ∧ receiptAttached = false then ["Upload Receipt"] else [])

/-- App.tsx validateForm return value: null (none) when no errors, else the
joined message. -/
def validateForm (d : ExpenseData) (receiptAttached : Bool) : Option String :=
  match validateErrors d receiptAttached with
  | [] => none
  | errs =>
    some ("Please complete all required fields: " ++ String.intercalate ", " errs ++ ".")

/-- The labels in the order the source pushes them. -/
def ALL_LABELS : List String :=
  ["Expense Category", "Project / Cost Center", "Expense Title",
   "Expense Date", "Amount", "Comment", "Upload Receipt"]

/-- Partial ExpenseData (the argument of handleAiParseSuccess and the data
returned by the gemini service): every field optional; a key is present in
the JS object exactly when the Option is some. -/
structure ParsedSuggestion where
  employeeName : Option String
  employeeId : Option String
  expenseCategory : Option String
  project : Option String
  expenseTitle : Option String
  expenseDate : Option String
  currency : Option String
  amount : Option ℚ
  comment : Option String
deriving DecidableEq

/-- The fully absent suggestion (the empty JS object). -/
def emptySuggestion : ParsedSuggestion :=
  ⟨none, none, none, none, none, none, none, none, none⟩

/-- The singleton key list contributed by one optional field of a JS
object. -/
def optKey (name : String) (o : Option α) : List String :=
  match o with
  | some _ => [name]
  | none => []

/-- Object.keys(parsedData): all keys present in the suggestion, identity
keys included, in field order. -/
def suggestionKeys (s : ParsedSuggestion) : List String :=
  optKey "employeeName" s.employeeName ++ optKey "employeeId" s.employeeId ++
  optKey "expenseCategory" s.expenseCategory ++ optKey "project" s.project ++
  optKey "expenseTitle" s.expenseTitle ++ optKey "expenseDate" s.expenseDate ++
  optKey "currency" s.currency ++ optKey "amount" s.amount ++
  optKey "comment" s.comment

/-- Object.keys(restOfParsedData): the keys left after destructuring away
employeeName and employeeId. -/
def appliedKeys (s : ParsedSuggestion) : List String :=
  optKey "expenseCategory" s.expenseCategory ++ optKey "project" s.project ++
  optKey "expenseTitle" s.expenseTitle ++ optKey "expenseDate" s.expenseDate ++
  optKey "currency" s.currency ++ optKey "amount" s.amount ++
  optKey "comment" s.comment

/-- The object spread of App.tsx line 76: every key present in
restOfParsedData (suggestion minus identity fields) overwrites the field of
prev; identity fields are kept from prev. -/
def applySuggestion (r : ExpenseData) (s : ParsedSuggestion) : ExpenseData :=
  { employeeName := r.employeeName
    employeeId := r.employeeId
    expenseCategory := s.expenseCategory.getD r.expenseCategory
    project := s.project.getD r.project
    expenseTitle := s.expenseTitle.getD r.expenseTitle
    expenseDate := s.expenseDate.getD r.expenseDate
    currency := s.currency.getD r.currency
    amount := match s.amount with
      | some q => some q
      | none => r.amount
    comment := s.comment.getD r.comment }

/-- The merge-relevant part of the controller state: the expense record and
the highlight set (updatedFields, a set of key names held here as a list). -/
structure ControllerState where
  expenseData : ExpenseData
  updatedFields : List String
deriving DecidableEq

/-- App.tsx handleAiParseSuccess. Returns the new controller state together
with a flag recording whether the setState calls ran (false exactly on the
early return for the keyless suggestion; when they run, React re-renders).
Note the early-return test counts ALL keys of parsedData, identity keys
included; when it is passed, the record is overwritten by the spread and
updatedFields is replaced by the post-exclusion key set (the timed clear of
updatedFields 2.5 seconds later is outside this step). -/
def handleAiParseSuccess (s : ParsedSuggestion) (st : ControllerState) :
    ControllerState × Bool :=
  if suggestionKeys s = [] then (st, false)
  else ({ expenseData := applySuggestion st.expenseData s
          updatedFields := appliedKeys s }, true)

/-- JS string.split(sep)[0] for the one-character separator: the prefix of
the string before the first occurrence of the separator (the whole string
when the separator does not occur). Used by the sanitizer on dates with
separator character T. -/
def normalizeDate (s : String) : String :=
  String.mk (s.toList.takeWhile (fun c => c != 'T'))

/-- Whether a string contains the date-time separator character T. -/
def hasTimeSep (s : String) : Bool :=
  s.toList.any (fun c => c == 'T')

/-- JS string.toUpperCase, modelled character by character. -/
def upperString (s : String) : String :=
  String.mk (s.toList.map Char.toUpper)

/-- A value of the JSON object produced by JSON.parse, as far as the
sanitizer can distinguish: a string, a number, or anything else (the
sanitizer tests only typeof string, typeof number, and membership in the
category list, so booleans, nulls, arrays and objects all behave alike). -/
inductive JsonValue where
  | str : String → JsonValue
  | num : ℚ → JsonValue
  | other : JsonValue
deriving DecidableEq

/-- The parsed JSON object as seen by the sanitizer: each schema key either
absent or bound to a JsonValue. -/
structure ParsedJson where
  expenseCategory : Option JsonValue
  project : Option JsonValue
  expenseTitle : Option JsonValue
  expenseDate : Option JsonValue
  currency : Option JsonValue
  amount : Option JsonValue
  comment : Option JsonValue
deriving DecidableEq

/-- The sanitize block of geminiService parseJsonResponse: each field is
kept only if its value passes its own check (category: a truthy value that
is a member of EXPENSE_CATEGORIES, hence one of the four strings; project,
expenseTitle, comment: any string; expenseDate: any string, truncated at
the first T; currency: any string, uppercased; amount: any number); every
failing or absent field is simply left out of the result. Identity fields
are never produced. -/
def sanitize (p : ParsedJson) : ParsedSuggestion :=
  { employeeName := none
    employeeId := none
    expenseCategory := match p.expenseCategory with
      | some (JsonValue.str s) =>
          if s ∈ EXPENSE_CATEGORIES then some s else none
      | _ => none
    project := match p.project with
      | some (JsonValue.str s) => some s
      | _ => none
    expenseTitle := match p.expenseTitle with
      | some (JsonValue.str s) => some s
      | _ => none
    expenseDate := match p.expenseDate with
      | some (JsonValue.str s) => some (normalizeDate s)
      | _ => none
    currency := match p.currency with
      | some (JsonValue.str s) => some (upperString s)
      | _ => none
    amount := match p.amount with
      | some (JsonValue.num q) => some q
      | _ => none
    comment := match p.comment with
      | some (JsonValue.str s) => some s
      | _ => none }

/-- geminiService parseJsonResponse: the input is none when the response
text does not parse as JSON (JSON.parse throws), in which case the whole
call fails with the fixed message; otherwise the sanitized partial record
is returned. -/
def parseJsonResponse (input : Option ParsedJson) :
    Except String ParsedSuggestion :=
  match input with
  | none =>
      Except.error "Could not understand the AI response. Please try again or enter manually."
  | some p => Except.ok (sanitize p)

/-- JS string.startsWith(pre): prefix test, modelled on the character
lists. -/
def strStartsWith (s pre : String) : Bool :=
  pre.toList.isPrefixOf s.toList

/-- The observable data of a browser File: name, mime type, byte size. -/
structure FileInfo where
  name : String
  mime : String
  size : Nat
deriving DecidableEq

/-- The attachment part of the controller state: receiptFile and
receiptPreview. -/
structure AttachState where
  receiptFile : Option FileInfo
  receiptPreview : Option String
deriving DecidableEq

/-- The AttachmentState invariant claimed by the spec: preview is non-null
iff file is non-null. -/
def attachInvariant (st : AttachState) : Bool :=
  st.receiptPreview.isSome == st.receiptFile.isSome

/-- App.tsx removeReceipt: clears file and preview (and the AI error,
outside this state). -/
def removeReceipt (st : AttachState) : AttachState :=
  { st with receiptFile := none, receiptPreview := none }

/-- The attachment part of App.tsx resetForm: clears file and preview. -/
def resetAttachment (st : AttachState) : AttachState :=
  { st with receiptFile := none, receiptPreview := none }

/-- App.tsx MAX_FILE_SIZE_BYTES. -/
def MAX_FILE_SIZE_BYTES : Nat := 5 * 1024 * 1024

/-- The synchronous part of App.tsx handleFileChange: no file, a non-image
mime type, or an oversized file leaves the attachment state unchanged
(only an error banner is set); an accepted file sets receiptFile at once
and starts the FileReader, whose loadend callback will set the preview
LATER — the preview is not touched here. -/
def handleFileChange (f : Option FileInfo) (st : AttachState) : AttachState :=
  match f with
  | none => st
  | some file =>
      if strStartsWith file.mime "image/" = false then st
      else if MAX_FILE_SIZE_BYTES < file.size then st
      else { st with receiptFile := some file }

/-- The FileReader loadend callback of handleFileChange: stores the data
URL as the preview (and then starts OCR, outside this state). -/
def readerLoaded (dataUrl : String) (st : AttachState) : AttachState :=
  { st with receiptPreview := some dataUrl }

/-- A complete file-upload interaction: the synchronous handler followed,
for accepted files only, by the reader callback (the reader is started
only on the accepted path). -/
def uploadReceipt (file : FileInfo) (dataUrl : String) (st : AttachState) :
    AttachState :=
  if strStartsWith file.mime "image/" = true ∧ file.size ≤ MAX_FILE_SIZE_BYTES
  then readerLoaded dataUrl (handleFileChange (some file) st)
  else handleFileChange (some file) st

/-- JS url.includes(sub): substring containment, as a scan over all start
positions. -/
def strIncludes (s sub : String) : Bool :=
  (List.range (s.toList.length + 1)).any
    (fun i => sub.toList.isPrefixOf (s.toList.drop i))

/-- String(value) for the amount field: the empty string when unset. -/
def amountToString (a : Option ℚ) : String :=
  match a with
  | none => ""
  | some q => toString q

/-- The multipart payload built by n8nService submitExpense: every record
field as a string, the timestamp, the receipt (by original file name) when
present, and the constant status marker. -/
def buildPayload (d : ExpenseData) (now : String) (receipt : Option FileInfo) :
    List (String × String) :=
  [("employeeName", d.employeeName), ("employeeId", d.employeeId),
   ("expenseCategory", d.expenseCategory), ("project", d.project),
   ("expenseTitle", d.expenseTitle), ("expenseDate", d.expenseDate),
   ("currency", d.currency), ("amount", amountToString d.amount),
   ("comment", d.comment), ("timestamp", now)] ++
  (match receipt with
   | some file => [("receipt", file.name)]
   | none => []) ++
  [("status", "Submitted")]

/-- n8nService submitExpense. The webhook URL is a parameter standing for
the N8N_WEBHOOK_URL constant; netOk tells whether the fetch resolves or
throws a transport error; now is the timestamp. The second component is
the dispatched network request: none means fetch was never called.
The placeholder test (url contains the substring n8n.example.com) runs
first, before any payload is assembled. -/
def submitExpense (url : String) (d : ExpenseData) (receipt : Option FileInfo)
    (now : String) (netOk : Bool) :
    Except String Unit × Option (List (String × String)) :=
  if strIncludes url "n8n.example.com" then
    (Except.error "Submission failed. The n8n webhook URL has not been configured in constants.ts.",
     none)
  else
    let payload := buildPayload d now receipt
    if netOk then (Except.ok (), some payload)
    else
      (Except.error "Could not submit your expense. Please check your network connection and webhook configuration.",
       some payload)

/-- types.ts SubmissionStatus. -/
inductive SubmissionStatus where
  | idle
  | submitting
  | success
  | error
deriving DecidableEq

/-- The controller state touched by handleSubmit and resetForm. -/
structure AppState where
  expenseData : ExpenseData
  receiptFile : Option FileInfo
  receiptPreview : Option String
  naturalLanguageQuery : String
  aiError : Option String
  submissionStatus : SubmissionStatus
  submissionError : Option String
deriving DecidableEq

/-- App.tsx resetForm: record back to defaults, attachment and query and AI
error cleared; submission status and error are NOT touched by resetForm. -/
def resetForm (today : String) (st : AppState) : AppState :=
  { st with expenseData := emptyExpenseState today
            receiptFile := none
            receiptPreview := none
            naturalLanguageQuery := ""
            aiError := none }

/-- The outcome of one handleSubmit call: the final state, whether
submitExpense (and hence the network) was invoked, and whether the
SUBMITTING status was ever entered. -/
structure SubmitOutcome where
  state : AppState
  networkCalled : Bool
  enteredSubmitting : Bool
deriving DecidableEq

/-- App.tsx handleSubmit: a validation failure sets the error message and
the ERROR status and returns before submitExpense is called; otherwise the
status passes through SUBMITTING, submitExpense runs (its result is the
netResult parameter), and the call ends in SUCCESS (with the form reset)
or ERROR (with the thrown message). -/
def handleSubmit (st : AppState) (netResult : Except String Unit)
    (today : String) : SubmitOutcome :=
  match validateForm st.expenseData st.receiptFile.isSome with
  | some msg =>
      { state := { st with submissionError := some msg
                           submissionStatus := SubmissionStatus.error }
        networkCalled := false
        enteredSubmitting := false }
  | none =>
      match netResult with
      | Except.ok _ =>
          { state := resetForm today
              { st with submissionStatus := SubmissionStatus.success
                        submissionError := none }
            networkCalled := true
            enteredSubmitting := true }
      | Except.error e =>
          { state := { st with submissionStatus := SubmissionStatus.error
                               submissionError := some e }
            networkCalled := true
            enteredSubmitting := true }

/-- A test record with every required field set and amount 600. -/
def record600 : ExpenseData :=
  { employeeName := "Snehal Papnoi"
    employeeId := "snehalpapnoi9@gmail.com"
    expenseCategory := "Travel"
    project := "Sales"
    expenseTitle := "Client dinner"
    expenseDate := "2026-10-12"
    currency := "INR"
    amount := some 600
    comment := "Dinner with client" }

/-- The same test record with amount exactly 500. -/
def record500 : ExpenseData :=
  { record600 with amount := some 500 }

/-- A test record with empty category, project, title and comment, a set
date and amount zero. -/
def zeroAmountRecord : ExpenseData :=
  { employeeName := "Snehal Papnoi"
    employeeId := "snehalpapnoi9@gmail.com"
    expenseCategory := ""
    project := ""
    expenseTitle := ""
    expenseDate := "2026-10-12"
    currency := "INR"
    amount := some 0
    comment := "" }

/-! Helper lemmas -/

theorem mem_ite_singleton {P : Prop} [Decidable P] (a l : String) :
    a ∈ (if P then [l] else []) ↔ P ∧ a = l := by
  by_cases h : P <;> simp [h]

theorem ite_singleton_sublist (P : Prop) [Decidable P] (l : String) :
    List.Sublist (if P then [l] else []) [l] := by
  split
  · exact List.Sublist.refl _
  · exact List.nil_sublist _

theorem handleFileChange_accepted (file : FileInfo) (st : AttachState)
    (h1 : strStartsWith file.mime "image/" = true)
    (h2 : file.size ≤ MAX_FILE_SIZE_BYTES) :
    handleFileChange (some file) st = { st with receiptFile := some file } := by
  show (if strStartsWith file.mime "image/" = false then st
        else if MAX_FILE_SIZE_BYTES < file.size then st
        else { st with receiptFile := some file }) = _
  rw [if_neg (by simp [h1]), if_neg (Nat.not_lt.mpr h2)]

theorem handleFileChange_rejected (file : FileInfo) (st : AttachState)
    (h : strStartsWith file.mime "image/" = false ∨
         MAX_FILE_SIZE_BYTES < file.size) :
    handleFileChange (some file) st = st := by
  show (if strStartsWith file.mime "image/" = false then st
        else if MAX_FILE_SIZE_BYTES < file.size then st
        else { st with receiptFile := some file }) = _
  rcases h with hm | hs
  · rw [if_pos hm]
  · by_cases hm2 : strStartsWith file.mime "image/" = false
    · rw [if_pos hm2]
    · rw [if_neg hm2, if_pos hs]

theorem optKey_eq_nil (name : String) (o : Option α) :
    optKey name o = [] ↔ o = none := by
  cases o <;> simp [optKey]

theorem suggestionKeys_eq_nil (s : ParsedSuggestion) :
    suggestionKeys s = [] ↔
      s.employeeName = none ∧ s.employeeId = none ∧
      s.expenseCategory = none ∧ s.project = none ∧
      s.expenseTitle = none ∧ s.expenseDate = none ∧
      s.currency = none ∧ s.amount = none ∧ s.comment = none := by
  simp [suggestionKeys, optKey_eq_nil]

theorem appliedKeys_eq_nil (s : ParsedSuggestion) :
    appliedKeys s = [] ↔
      s.expenseCategory = none ∧ s.project = none ∧
      s.expenseTitle = none ∧ s.expenseDate = none ∧
      s.currency = none ∧ s.amount = none ∧ s.comment = none := by
  simp [appliedKeys, optKey_eq_nil]

/-! Claims -/

/-- C1: merging a ParsedSuggestion into the current record always keeps
employeeName and employeeId from the current record, even when the
suggestion carries them, and every other field present in the suggestion
overwrites the corresponding record field unconditionally. -/
theorem merge_protects_identity_overwrites_rest (s : ParsedSuggestion)
    (st : ControllerState) :
    (handleAiParseSuccess s st).1.expenseData.employeeName
        = st.expenseData.employeeName ∧
    (handleAiParseSuccess s st).1.expenseData.employeeId
        = st.expenseData.employeeId ∧
    (∀ v, s.expenseCategory = some v →
      (handleAiParseSuccess s st).1.expenseData.expenseCategory = v) ∧
    (∀ v, s.project = some v →
      (handleAiParseSuccess s st).1.expenseData.project = v) ∧
    (∀ v, s.expenseTitle = some v →
      (handleAiParseSuccess s st).1.expenseData.expenseTitle = v) ∧
    (∀ v, s.expenseDate = some v →
      (handleAiParseSuccess s st).1.expenseData.expenseDate = v) ∧
    (∀ v, s.currency = some v →
      (handleAiParseSuccess s st).1.expenseData.currency = v) ∧
    (∀ q, s.amount = some q →
      (handleAiParseSuccess s st).1.expenseData.amount = some q) ∧
    (∀ v, s.comment = some v →
      (handleAiParseSuccess s st).1.expenseData.comment = v) := by
  unfold handleAiParseSuccess
  by_cases h : suggestionKeys s = []
  · rw [if_pos h]
    rw [suggestionKeys_eq_nil] at h
    obtain ⟨-, -, h3, h4, h5, h6, h7, h8, h9⟩ := h
    refine ⟨rfl, rfl, ?_, ?_, ?_, ?_, ?_, ?_, ?_⟩ <;> intro v hv
    · rw [h3] at hv; exact Option.noConfusion hv
    · rw [h4] at hv; exact Option.noConfusion hv
    · rw [h5] at hv; exact Option.noConfusion hv
    · rw [h6] at hv; exact Option.noConfusion hv
    · rw [h7] at hv; exact Option.noConfusion hv
    · rw [h8] at hv; exact Option.noConfusion hv
    · rw [h9] at hv; exact Option.noConfusion hv
  · rw [if_neg h]
    refine ⟨rfl, rfl, ?_, ?_, ?_, ?_, ?_, ?_, ?_⟩ <;> intro v hv <;>
      simp [applySuggestion, hv]

/-- C1 witness: the theorem applied to a concrete suggestion that carries
both an identity field and an ordinary field, on a concrete state. -/
theorem merge_protects_identity_overwrites_rest_witness :
    (handleAiParseSuccess
        ⟨some "Mallory", none, none, some "Apollo", none, none, none, none, none⟩
        ⟨emptyExpenseState "2026-10-12", []⟩).1.expenseData.employeeName
      = "Snehal Papnoi" ∧
    (handleAiParseSuccess
        ⟨some "Mallory", none, none, some "Apollo", none, none, none, none, none⟩
        ⟨emptyExpenseState "2026-10-12", []⟩).1.expenseData.project
      = "Apollo" := by
  have h := merge_protects_identity_overwrites_rest
    ⟨some "Mallory", none, none, some "Apollo", none, none, none, none, none⟩
    ⟨emptyExpenseState "2026-10-12", []⟩
  exact ⟨h.1, h.2.2.2.1 "Apollo" rfl⟩

theorem applySuggestion_of_applied_nil (r : ExpenseData) (s : ParsedSuggestion)
    (h : appliedKeys s = []) : applySuggestion r s = r := by
  rw [appliedKeys_eq_nil] at h
  obtain ⟨h3, h4, h5, h6, h7, h8, h9⟩ := h
  simp [applySuggestion, h3, h4, h5, h6, h7, h8, h9]

/-- C5 counterexample: a suggestion carrying only the identity field
employeeName is empty after exclusion, yet handleAiParseSuccess does
change the controller state (it wipes a live highlight set) and does run
its state updates (.2 = true), because the early-return test counts keys
BEFORE the identity fields are excluded. -/
theorem merge_empty_after_exclusion_counterexample :
    appliedKeys
        ⟨some "Mallory", none, none, none, none, none, none, none, none⟩ = [] ∧
    (handleAiParseSuccess
        ⟨some "Mallory", none, none, none, none, none, none, none, none⟩
        ⟨emptyExpenseState "2026-10-12", ["amount"]⟩).1
      ≠ ⟨emptyExpenseState "2026-10-12", ["amount"]⟩ ∧
    (handleAiParseSuccess
        ⟨some "Mallory", none, none, none, none, none, none, none, none⟩
        ⟨emptyExpenseState "2026-10-12", ["amount"]⟩).2 = true := by
  decide

/-- C5 (amended): merging a suggestion that is empty after excluding the
identity fields never changes the record value; for the fully empty
suggestion the call is a true no-op (state returned as-is, no update
performed); but for a non-empty identity-only suggestion the controller
still performs its state updates: the highlight set is replaced by the
empty set (clobbering any live highlights) and a re-render is triggered. -/
theorem merge_empty_after_exclusion (s : ParsedSuggestion)
    (st : ControllerState) (h : appliedKeys s = []) :
    (handleAiParseSuccess s st).1.expenseData = st.expenseData ∧
    (suggestionKeys s = [] → handleAiParseSuccess s st = (st, false)) ∧
    (suggestionKeys s ≠ [] →
      (handleAiParseSuccess s st).1.updatedFields = [] ∧
      (handleAiParseSuccess s st).2 = true) := by
  by_cases h0 : suggestionKeys s = []
  · refine ⟨?_, fun _ => ?_, fun hne => absurd h0 hne⟩ <;>
      simp [handleAiParseSuccess, h0]
  · refine ⟨?_, fun he => absurd he h0, fun _ => ⟨?_, ?_⟩⟩ <;>
      simp [handleAiParseSuccess, h0, applySuggestion_of_applied_nil _ _ h, h]

/-- C5 witness: the amended theorem applied to the fully empty suggestion
on a concrete state: a complete no-op. -/
theorem merge_empty_after_exclusion_witness :
    handleAiParseSuccess emptySuggestion
        ⟨emptyExpenseState "2026-10-12", ["amount"]⟩
      = (⟨emptyExpenseState "2026-10-12", ["amount"]⟩, false) :=
  (merge_empty_after_exclusion emptySuggestion
      ⟨emptyExpenseState "2026-10-12", ["amount"]⟩ (by decide)).2.1 (by decide)

/-- C2: the validator evaluates all six required-presence checks
independently and collects every violation: each label is in the error
list exactly when its field is missing; any set amount (zero included)
passes the amount check while the unset amount fails it; the list is a
sublist of the fixed label order expenseCategory, project, expenseTitle,
expenseDate, amount, comment (receipt last); the result is invalid exactly
when the list is non-empty. The final conjunct is the spec example: empty
category, project, title and comment, a set date, amount zero, no
attachment collects exactly those four violations. -/
theorem validate_collects_all_violations :
    (∀ (d : ExpenseData) (h : Bool),
      ("Expense Category" ∈ validateErrors d h ↔ d.expenseCategory = "") ∧
      ("Project / Cost Center" ∈ validateErrors d h ↔ d.project = "") ∧
      ("Expense Title" ∈ validateErrors d h ↔ d.expenseTitle = "") ∧
      ("Expense Date" ∈ validateErrors d h ↔ d.expenseDate = "") ∧
      ("Amount" ∈ validateErrors d h ↔ d.amount = none) ∧
      ("Comment" ∈ validateErrors d h ↔ d.comment = "") ∧
      (∀ q : ℚ, d.amount = some q → "Amount" ∉ validateErrors d h) ∧
      List.Sublist (validateErrors d h) ALL_LABELS ∧
      (validateForm d h = none ↔ validateErrors d h = [])) ∧
    validateErrors zeroAmountRecord false =
      ["Expense Category", "Project / Cost Center", "Expense Title",
       "Comment"] := by
  refine ⟨fun d h => ⟨?_, ?_, ?_, ?_, ?_, ?_, ?_, ?_, ?_⟩, by decide⟩
  · simp [validateErrors, mem_ite_singleton]
  · simp [validateErrors, mem_ite_singleton]
  · simp [validateErrors, mem_ite_singleton]
  · simp [validateErrors, mem_ite_singleton]
  · simp [validateErrors, mem_ite_singleton]
  · simp [validateErrors, mem_ite_singleton]
  · intro q hq
    simp [validateErrors, mem_ite_singleton, hq]
  · unfold validateErrors
    show List.Sublist _
      ((((((["Expense Category"] ++ ["Project / Cost Center"]) ++
        ["Expense Title"]) ++ ["Expense Date"]) ++ ["Amount"]) ++
        ["Comment"]) ++ ["Upload Receipt"])
    exact ((((((ite_singleton_sublist (d.expenseCategory = "") _).append
      (ite_singleton_sublist (d.project = "") _)).append
      (ite_singleton_sublist (d.expenseTitle = "") _)).append
      (ite_singleton_sublist (d.expenseDate = "") _)).append
      (ite_singleton_sublist (d.amount = none) _)).append
      (ite_singleton_sublist (d.comment = "") _)).append
      (ite_singleton_sublist (500 < amountNum d ∧ h = false) _)
  · cases hE : validateErrors d h <;> simp [validateForm, hE]

/-- C2 witness: at the concrete zero-amount record, the amount check
passes (amount zero is set, not missing). -/
theorem validate_collects_all_violations_witness :
    "Amount" ∉ validateErrors zeroAmountRecord false :=
  (validate_collects_all_violations.1 zeroAmountRecord false).2.2.2.2.2.2.1
    0 rfl

/-- C3: the missing-receipt violation is appended exactly when the numeric
amount strictly exceeds 500 and no attachment is present; concretely, the
all-set record with amount 600 and no attachment is invalid with exactly
the receipt violation, the same record with an attachment is valid, and
the all-set record with amount exactly 500 and no attachment is valid. -/
theorem receipt_rule_strict_500 :
    (∀ (d : ExpenseData) (h : Bool),
      "Upload Receipt" ∈ validateErrors d h ↔
        (500 < amountNum d ∧ h = false)) ∧
    validateErrors record600 false = ["Upload Receipt"] ∧
    validateForm record600 false ≠ none ∧
    validateForm record600 true = none ∧
    validateForm record500 false = none := by
  refine ⟨fun d h => ?_, by decide, by decide, by decide, by decide⟩
  simp [validateErrors, mem_ite_singleton]

/-- C3 witness: the receipt-rule characterization applied at the concrete
600-amount record without attachment. -/
theorem receipt_rule_strict_500_witness :
    "Upload Receipt" ∈ validateErrors record600 false :=
  (receipt_rule_strict_500.1 record600 false).mpr (by decide)

theorem mk_toList (s : String) : String.mk s.toList = s := rfl

theorem hasTimeSep_normalizeDate (s : String) :
    hasTimeSep (normalizeDate s) = false := by
  unfold hasTimeSep normalizeDate
  show (s.toList.takeWhile (fun c => c != 'T')).any (fun c => c == 'T') = false
  rw [List.any_eq_false]
  intro x hx
  have hp := List.mem_takeWhile_imp hx
  simp only [bne_iff_ne, ne_eq] at hp
  simp [hp]

/-- C4: for every AI response that parses as structured data, each field
whose value fails its domain check (category not in the enumerated list,
non-string text fields, non-numeric amount) is silently omitted from the
returned suggestion, while the valid fields of the same response are all
retained; the whole call fails exactly when the response is not parseable
as structured data at all. -/
theorem parse_partial_success :
    (∀ inp : Option ParsedJson,
      (∃ e, parseJsonResponse inp = Except.error e) ↔ inp = none) ∧
    (∀ p : ParsedJson, ∃ s, parseJsonResponse (some p) = Except.ok s ∧
      (∀ c, p.expenseCategory = some (JsonValue.str c) →
        c ∈ EXPENSE_CATEGORIES → s.expenseCategory = some c) ∧
      (∀ c, p.expenseCategory = some (JsonValue.str c) →
        c ∉ EXPENSE_CATEGORIES → s.expenseCategory = none) ∧
      (∀ q, p.expenseCategory = some (JsonValue.num q) →
        s.expenseCategory = none) ∧
      (p.expenseCategory = some JsonValue.other → s.expenseCategory = none) ∧
      (∀ q, p.amount = some (JsonValue.num q) → s.amount = some q) ∧
      (∀ c, p.amount = some (JsonValue.str c) → s.amount = none) ∧
      (p.amount = some JsonValue.other → s.amount = none) ∧
      (∀ c, p.project = some (JsonValue.str c) → s.project = some c) ∧
      (∀ c, p.expenseTitle = some (JsonValue.str c) →
        s.expenseTitle = some c) ∧
      (∀ c, p.comment = some (JsonValue.str c) → s.comment = some c) ∧
      (∀ c, p.expenseDate = some (JsonValue.str c) →
        s.expenseDate = some (normalizeDate c)) ∧
      (∀ c, p.currency = some (JsonValue.str c) →
        s.currency = some (upperString c))) := by
  constructor
  · intro inp
    cases inp with
    | none => exact ⟨fun _ => rfl, fun _ => ⟨_, rfl⟩⟩
    | some p =>
        constructor
        · rintro ⟨e, he⟩
          exact Except.noConfusion (he.symm.trans rfl)
        · intro hn; exact Option.noConfusion hn
  · intro p
    refine ⟨sanitize p, rfl, ?_, ?_, ?_, ?_, ?_, ?_, ?_, ?_, ?_, ?_, ?_, ?_⟩
    · intro c hc hmem; simp [sanitize, hc, hmem]
    · intro c hc hmem; simp [sanitize, hc, hmem]
    · intro q hq; simp [sanitize, hq]
    · intro ho; simp [sanitize, ho]
    · intro q hq; simp [sanitize, hq]
    · intro c hc; simp [sanitize, hc]
    · intro ho; simp [sanitize, ho]
    · intro c hc; simp [sanitize, hc]
    · intro c hc; simp [sanitize, hc]
    · intro c hc; simp [sanitize, hc]
    · intro c hc; simp [sanitize, hc]
    · intro c hc; simp [sanitize, hc]

/-- C4 witness: a parseable response with an invalid category but a valid
title and amount keeps the valid fields and drops only the category. -/
theorem parse_partial_success_witness :
    ∃ s, parseJsonResponse (some
        ⟨some (JsonValue.str "Unknown"), none, some (JsonValue.str "Hyatt"),
         none, none, some (JsonValue.num 1800), none⟩) = Except.ok s ∧
      s.expenseCategory = none ∧ s.expenseTitle = some "Hyatt" ∧
      s.amount = some 1800 := by
  obtain ⟨s, hok, h1, h2, h3, h4, h5, h6, h7, h8, h9, h10, h11, h12⟩ :=
    parse_partial_success.2
      ⟨some (JsonValue.str "Unknown"), none, some (JsonValue.str "Hyatt"),
       none, none, some (JsonValue.num 1800), none⟩
  exact ⟨s, hok, h2 "Unknown" rfl (by decide), h9 "Hyatt" rfl, h5 1800 rfl⟩

/-- C6: every suggestion produced from a parseable response satisfies the
domain constraints: a present category is one of the four enumerated
values; a present date is the truncation of the raw date at the first
time separator, and carries no time separator itself; a present currency
is the uppercasing of the raw currency. The closing conjuncts are the
round-trip examples. -/
theorem suggestion_domain_invariants :
    (∀ (p : ParsedJson) (s : ParsedSuggestion),
      parseJsonResponse (some p) = Except.ok s →
      (∀ c, s.expenseCategory = some c → c ∈ EXPENSE_CATEGORIES) ∧
      (∀ d, s.expenseDate = some d →
        hasTimeSep d = false ∧
        ∃ raw, p.expenseDate = some (JsonValue.str raw) ∧
          d = normalizeDate raw) ∧
      (∀ c, s.currency = some c →
        ∃ raw, p.currency = some (JsonValue.str raw) ∧
          c = upperString raw)) ∧
    normalizeDate "2024-07-10T00:00:00Z" = "2024-07-10" ∧
    upperString "inr" = "INR" := by
  refine ⟨?_, by decide, by decide⟩
  intro p s hs
  have h2 : (Except.ok (sanitize p) : Except String ParsedSuggestion)
      = Except.ok s := by rw [← hs]; rfl
  injection h2 with h3
  subst h3
  refine ⟨?_, ?_, ?_⟩
  · intro c hc
    rcases hcat : p.expenseCategory with _ | (t | q | _)
    · simp [sanitize, hcat] at hc
    · simp only [sanitize, hcat] at hc
      by_cases hm : t ∈ EXPENSE_CATEGORIES
      · rw [if_pos hm] at hc
        injection hc with h4
        subst h4
        exact hm
      · rw [if_neg hm] at hc
        exact Option.noConfusion hc
    · simp [sanitize, hcat] at hc
    · simp [sanitize, hcat] at hc
  · intro d hd
    rcases hdt : p.expenseDate with _ | (t | q | _)
    · simp [sanitize, hdt] at hd
    · simp only [sanitize, hdt] at hd
      injection hd with h4
      subst h4
      exact ⟨hasTimeSep_normalizeDate t, t, rfl, rfl⟩
    · simp [sanitize, hdt] at hd
    · simp [sanitize, hdt] at hd
  · intro c hc
    rcases hcur : p.currency with _ | (t | q | _)
    · simp [sanitize, hcur] at hc
    · simp only [sanitize, hcur] at hc
      injection hc with h4
      subst h4
      exact ⟨t, rfl, rfl⟩
    · simp [sanitize, hcur] at hc
    · simp [sanitize, hcur] at hc

/-- C6 witness: the invariants applied to a concrete parseable response
with category Travel, a timestamped date and lowercase currency. -/
theorem suggestion_domain_invariants_witness :
    "Travel" ∈ EXPENSE_CATEGORIES ∧ hasTimeSep "2024-07-10" = false := by
  have h := suggestion_domain_invariants.1
    ⟨some (JsonValue.str "Travel"), none, none,
     some (JsonValue.str "2024-07-10T00:00:00Z"), some (JsonValue.str "inr"),
     none, none⟩
    (sanitize ⟨some (JsonValue.str "Travel"), none, none,
     some (JsonValue.str "2024-07-10T00:00:00Z"), some (JsonValue.str "inr"),
     none, none⟩) rfl
  exact ⟨h.1 "Travel" (by decide), (h.2.1 "2024-07-10" (by decide)).1⟩

/-- C10: the date normalization used by the sanitizer (keep the portion of
the string before the first time separator) is idempotent, and is the
identity on every string containing no time separator. -/
theorem normalizeDate_idempotent_identity :
    (∀ s, normalizeDate (normalizeDate s) = normalizeDate s) ∧
    (∀ s, hasTimeSep s = false → normalizeDate s = s) := by
  constructor
  · intro s
    exact congrArg String.mk List.takeWhile_idem
  · intro s h
    unfold hasTimeSep at h
    rw [List.any_eq_false] at h
    unfold normalizeDate
    have hall : ∀ x ∈ s.toList, (x != 'T') = true := by
      intro x hx
      simpa using h x hx
    rw [List.takeWhile_eq_self_iff.mpr hall]
    exact mk_toList s

/-- C10 witness: the identity half applied to a separator-free concrete
date string. -/
theorem normalizeDate_idempotent_identity_witness :
    normalizeDate "2024-07-10" = "2024-07-10" :=
  normalizeDate_idempotent_identity.2 "2024-07-10" (by decide)

/-- C7: whenever the destination URL is the unconfigured placeholder (it
contains n8n.example.com), submitExpense fails at once with the
configuration error, for every record, attachment, timestamp and network
behaviour, and no request is ever dispatched (the dispatched-request
component is none). -/
theorem submit_placeholder_config_error (url : String) (d : ExpenseData)
    (receipt : Option FileInfo) (now : String) (netOk : Bool)
    (h : strIncludes url "n8n.example.com" = true) :
    submitExpense url d receipt now netOk =
      (Except.error "Submission failed. The n8n webhook URL has not been configured in constants.ts.",
       none) := by
  simp [submitExpense, h]

/-- C7 witness: the theorem at a concrete placeholder URL. -/
theorem submit_placeholder_config_error_witness :
    submitExpense "https://n8n.example.com/webhook/42"
        (emptyExpenseState "2026-10-12") none "2026-10-12T10:00:00Z" true =
      (Except.error "Submission failed. The n8n webhook URL has not been configured in constants.ts.",
       none) :=
  submit_placeholder_config_error "https://n8n.example.com/webhook/42"
    (emptyExpenseState "2026-10-12") none "2026-10-12T10:00:00Z" true
    (by decide)

/-- C8: when validation fails, handleSubmit performs no network call and
ends in the error status carrying the violation message, never entering
the submitting status; the submitting status is entered exactly when
validation passes. -/
theorem invalid_submit_no_network (st : AppState)
    (netResult : Except String Unit) (today : String) :
    (∀ msg, validateForm st.expenseData st.receiptFile.isSome = some msg →
      handleSubmit st netResult today =
        { state := { st with submissionError := some msg
                             submissionStatus := SubmissionStatus.error }
          networkCalled := false
          enteredSubmitting := false }) ∧
    ((handleSubmit st netResult today).enteredSubmitting = true ↔
      validateForm st.expenseData st.receiptFile.isSome = none) ∧
    ((handleSubmit st netResult today).networkCalled = true ↔
      validateForm st.expenseData st.receiptFile.isSome = none) := by
  refine ⟨?_, ?_, ?_⟩
  · intro msg hmsg
    unfold handleSubmit
    rw [hmsg]
  · unfold handleSubmit
    cases hv : validateForm st.expenseData st.receiptFile.isSome with
    | none => cases netResult <;> simp
    | some m => simp
  · unfold handleSubmit
    cases hv : validateForm st.expenseData st.receiptFile.isSome with
    | none => cases netResult <;> simp
    | some m => simp

/-- C8 witness: a concrete invalid state (empty required fields): no
network call, error status, the message carried. -/
theorem invalid_submit_no_network_witness :
    handleSubmit
        ⟨zeroAmountRecord, none, none, "", none, SubmissionStatus.idle, none⟩
        (Except.ok ()) "2026-10-12" =
      { state := ⟨zeroAmountRecord, none, none, "", none,
          SubmissionStatus.error,
          some "Please complete all required fields: Expense Category, Project / Cost Center, Expense Title, Comment."⟩
        networkCalled := false
        enteredSubmitting := false } :=
  (invalid_submit_no_network
      ⟨zeroAmountRecord, none, none, "", none, SubmissionStatus.idle, none⟩
      (Except.ok ()) "2026-10-12").1
    "Please complete all required fields: Expense Category, Project / Cost Center, Expense Title, Comment."
    (by decide)

/-- C9 counterexample: right after the synchronous part of a first valid
file upload — before the asynchronous FileReader callback has delivered
the preview — receiptFile is non-null while receiptPreview is still null,
so the claimed invariant does not hold after the upload operation. -/
theorem attachment_invariant_counterexample :
    attachInvariant
      (handleFileChange (some ⟨"receipt.jpg", "image/jpeg", 1000⟩)
        ⟨none, none⟩) = false := by
  decide

/-- C9 (amended): the preview-iff-file invariant is preserved by a
complete upload interaction (synchronous handler plus, for accepted
files, the reader callback; rejected files leave the state unchanged),
and holds outright after attachment removal and after form reset; it is
NOT maintained between the synchronous file-set and the later reader
callback of an upload. -/
theorem attachment_invariant_amended (st : AttachState) (file : FileInfo)
    (dataUrl : String) (h : attachInvariant st = true) :
    attachInvariant (uploadReceipt file dataUrl st) = true ∧
    attachInvariant (removeReceipt st) = true ∧
    attachInvariant (resetAttachment st) = true := by
  refine ⟨?_, rfl, rfl⟩
  unfold uploadReceipt
  by_cases h1 : strStartsWith file.mime "image/" = true
  · by_cases h2 : file.size ≤ MAX_FILE_SIZE_BYTES
    · rw [if_pos ⟨h1, h2⟩, handleFileChange_accepted file st h1 h2]
      rfl
    · rw [if_neg (fun hc => h2 hc.2),
        handleFileChange_rejected file st (Or.inr (Nat.not_le.mp h2))]
      exact h
  · rw [if_neg (fun hc => h1 hc.1),
      handleFileChange_rejected file st
        (Or.inl (Bool.eq_false_iff.mpr h1))]
    exact h

/-- C9 witness: the amended theorem at a concrete accepted upload from the
empty attachment state. -/
theorem attachment_invariant_amended_witness :
    attachInvariant
      (uploadReceipt ⟨"receipt.jpg", "image/jpeg", 1000⟩
        "dataUrl" ⟨none, none⟩) = true :=
  (attachment_invariant_amended ⟨none, none⟩
    ⟨"receipt.jpg", "image/jpeg", 1000⟩ "dataUrl" (by decide)).1
